import Mathlib

/-!
Verification of the FlightSimOnline repository: a shallow embedding of the
client flight-simulation store (`useFlightSim.tsx`), the per-frame physics
step of `Aircraft.tsx`, and the server lobby registry and state relay
(`routes.ts`), with theorems settling the specified properties.

Numbers are modelled as exact rationals (`ℚ`); JavaScript `Map`s are
modelled as insertion-ordered association lists.
-/

namespace FlightSimOnline

/-- A 3-component vector, as the `Vector3`/`{x,y,z}` records of the source. -/
structure Vec3 where
  x : ℚ
  y : ℚ
  z : ℚ
deriving DecidableEq, Repr

/-- The closed set of aircraft types (`AircraftType` in `useFlightSim.tsx`). -/
inductive AircraftType
  | cessna
  | cargo
  | fighter
  | helicopter
  | glider
  | bomber
  | stunt
deriving DecidableEq, Repr

/-- Static per-type physics profile (`AircraftPhysics` in `Aircraft.tsx`). -/
structure AircraftPhysics where
  liftCoefficient : ℚ
  dragCoefficient : ℚ
  pitchSpeed : ℚ
  rollSpeed : ℚ
  yawSpeed : ℚ
  throttleChangeRate : ℚ
  maxSpeed : ℚ
  minFlightSpeed : ℚ
  fuelConsumptionRate : ℚ
deriving DecidableEq, Repr

/-- The `AIRCRAFT_PHYSICS` coefficient table of `Aircraft.tsx`. -/
def AIRCRAFT_PHYSICS : AircraftType → AircraftPhysics
  | .cessna => ⟨0.15, 0.02, 1.5, 2.0, 1.0, 0.5, 80, 15, 0.008⟩
  | .cargo => ⟨0.12, 0.03, 0.8, 1.0, 0.6, 0.3, 60, 25, 0.015⟩
  | .fighter => ⟨0.18, 0.015, 2.5, 3.5, 1.8, 0.8, 150, 20, 0.02⟩
  | .helicopter => ⟨0.25, 0.025, 2.0, 2.5, 2.2, 0.6, 90, 0, 0.012⟩
  | .glider => ⟨0.22, 0.01, 1.2, 1.8, 0.8, 0.2, 70, 10, 0.001⟩
  | .bomber => ⟨0.14, 0.035, 0.6, 0.8, 0.5, 0.25, 55, 30, 0.018⟩
  | .stunt => ⟨0.2, 0.018, 3.0, 4.0, 2.5, 0.7, 120, 18, 0.016⟩

/-! ## Store control state (`useFlightSim.tsx` throttle/fuel actions) -/

/-- The throttle/fuel slice of the `useFlightSim` store. -/
structure ControlState where
  throttle : ℚ
  fuel : ℚ
deriving DecidableEq, Repr

/-- The store operations touching throttle or fuel
(`setThrottle`, `setFuel`, `consumeFuel`, `refuel`). -/
inductive StoreOp
  | setThrottle (t : ℚ)
  | setFuel (f : ℚ)
  | consumeFuel (amount : ℚ)
  | refuel (amount : ℚ)
deriving DecidableEq, Repr

/-- One store action, exactly as in `useFlightSim.tsx`:
`setThrottle` clamps to `[0,1]`, `setFuel` clamps to `[0,100]`,
`consumeFuel` floors at `0`, `refuel` caps at `100`. -/
def applyStoreOp (s : ControlState) : StoreOp → ControlState
  | .setThrottle t => { s with throttle := max 0 (min 1 t) }
  | .setFuel f => { s with fuel := max 0 (min 100 f) }
  | .consumeFuel amount => { s with fuel := max 0 (s.fuel - amount) }
  | .refuel amount => { s with fuel := min 100 (s.fuel + amount) }

/-- Run a sequence of store operations. -/
def runStoreOps (s : ControlState) (ops : List StoreOp) : ControlState :=
  ops.foldl applyStoreOp s

/-- The initial store state: throttle 0, fuel 100. -/
def initialControlState : ControlState := ⟨0, 100⟩

/-- Operation shapes producible by the flight loop: `consumeFuel` is invoked
with `fuelConsumptionRate * newThrottle * delta (* boost)` and `refuel`
with `20 * delta`, both nonnegative since `delta ≥ 0`. -/
def flightLoopOp : StoreOp → Prop
  | .consumeFuel amount => 0 ≤ amount
  | .refuel amount => 0 ≤ amount
  | _ => True

/-- The claimed ranges: throttle in `[0,1]`, fuel in `[0,100]`. -/
def controlInvariant (s : ControlState) : Prop :=
  0 ≤ s.throttle ∧ s.throttle ≤ 1 ∧ 0 ≤ s.fuel ∧ s.fuel ≤ 100

lemma controlInvariant_applyStoreOp (s : ControlState) (op : StoreOp)
    (hs : controlInvariant s) (hop : flightLoopOp op) :
    controlInvariant (applyStoreOp s op) := by
  obtain ⟨h1, h2, h3, h4⟩ := hs
  cases op with
  | setThrottle t =>
      refine ⟨le_max_left _ _, ?_, h3, h4⟩
      exact max_le (by norm_num) (le_trans (min_le_left _ _) le_rfl)
  | setFuel f =>
      refine ⟨h1, h2, le_max_left _ _, ?_⟩
      exact max_le (by norm_num) (min_le_left _ _)
  | consumeFuel amount =>
      simp only [flightLoopOp] at hop
      refine ⟨h1, h2, le_max_left _ _, ?_⟩
      exact max_le (by norm_num) (by linarith)
  | refuel amount =>
      simp only [flightLoopOp] at hop
      refine ⟨h1, h2, le_min (by norm_num) (by linarith), min_le_left _ _⟩

lemma controlInvariant_runStoreOps (s : ControlState) (ops : List StoreOp)
    (hs : controlInvariant s) (hops : ∀ op ∈ ops, flightLoopOp op) :
    controlInvariant (runStoreOps s ops) := by
  induction ops generalizing s with
  | nil => exact hs
  | cons op rest ih =>
      have h1 : flightLoopOp op := hops op (List.mem_cons_self op rest)
      have h2 : ∀ o ∈ rest, flightLoopOp o := fun o ho => hops o (List.mem_cons_of_mem _ ho)
      exact ih (applyStoreOp s op) (controlInvariant_applyStoreOp s op hs h1) h2

/-- C1: for every sequence of `setThrottle`/`setFuel`/`consumeFuel`/`refuel`
operations as invoked by the flight loop (fuel deltas nonnegative), starting
from the initial state (throttle 0, fuel 100), throttle stays within `[0,1]`
and fuel stays within `[0,100]` after every operation (every sequence, hence
every prefix of a longer run). -/
theorem C1_throttle_fuel_invariant (ops : List StoreOp)
    (hops : ∀ op ∈ ops, flightLoopOp op) :
    controlInvariant (runStoreOps initialControlState ops) := by
  refine controlInvariant_runStoreOps _ _ ?_ hops
  refine ⟨le_refl 0, by norm_num [initialControlState], by norm_num [initialControlState],
    le_of_eq rfl⟩

/-- Witness for C1 at a concrete operation sequence. -/
theorem C1_witness :
    controlInvariant (runStoreOps initialControlState
      [.setThrottle 2, .consumeFuel 50, .refuel 30, .setFuel 150, .consumeFuel 200]) := by
  refine C1_throttle_fuel_invariant _ ?_
  intro op hop
  simp only [List.mem_cons, List.not_mem_nil, or_false] at hop
  rcases hop with h | h | h | h | h <;> subst h <;> simp [flightLoopOp]

/-! ## Association-list model of JavaScript `Map` -/

/-- `Map.has`. -/
def mapHas {α : Type} (m : List (String × α)) (k : String) : Bool :=
  m.any (fun p => p.1 == k)

/-- `Map.get`. -/
def mapGet {α : Type} (m : List (String × α)) (k : String) : Option α :=
  (m.find? (fun p => p.1 == k)).map (fun p => p.2)

/-- `Map.set`: updates the existing entry in place (keeping insertion order)
or appends a fresh one, as JavaScript `Map.set` does. -/
def mapSet {α : Type} (m : List (String × α)) (k : String) (v : α) : List (String × α) :=
  if mapHas m k then m.map (fun p => if p.1 == k then (k, v) else p) else m ++ [(k, v)]

/-- `Map.delete`. -/
def mapDelete {α : Type} (m : List (String × α)) (k : String) : List (String × α) :=
  m.filter (fun p => p.1 != k)

lemma mapHas_iff_mem_keys {α : Type} (m : List (String × α)) (k : String) :
    mapHas m k = true ↔ k ∈ m.map (fun p => p.1) := by
  unfold mapHas
  rw [List.any_eq_true]
  simp only [List.mem_map, beq_iff_eq]

lemma mapSet_cons_of_eq {α : Type} (q : String × α) (rest : List (String × α))
    (k : String) (v : α) (hq : (q.1 == k) = true) :
    mapSet (q :: rest) k v
      = (k, v) :: rest.map (fun p => if p.1 == k then (k, v) else p) := by
  unfold mapSet mapHas
  rw [List.any_cons, hq, Bool.true_or, if_pos rfl, List.map_cons, if_pos hq]

lemma mapSet_cons_of_ne {α : Type} (q : String × α) (rest : List (String × α))
    (k : String) (v : α) (hq : (q.1 == k) = false) :
    mapSet (q :: rest) k v = q :: mapSet rest k v := by
  have hq' : ¬ ((q.1 == k) = true) := by simp [hq]
  unfold mapSet mapHas
  rw [List.any_cons, hq, Bool.false_or]
  by_cases h : (rest.any fun p => p.1 == k) = true
  · rw [if_pos h, if_pos h, List.map_cons, if_neg hq']
  · rw [if_neg h, if_neg h, List.cons_append]

lemma mapGet_cons_of_eq {α : Type} (q : String × α) (rest : List (String × α))
    (k : String) (hq : (q.1 == k) = true) : mapGet (q :: rest) k = some q.2 := by
  unfold mapGet
  rw [List.find?_cons]
  simp [hq]

lemma mapGet_cons_of_ne {α : Type} (q : String × α) (rest : List (String × α))
    (k : String) (hq : (q.1 == k) = false) : mapGet (q :: rest) k = mapGet rest k := by
  unfold mapGet
  rw [List.find?_cons]
  simp [hq]

lemma mapGet_mapSet_self {α : Type} (m : List (String × α)) (k : String) (v : α) :
    mapGet (mapSet m k v) k = some v := by
  induction m with
  | nil =>
      have h0 : mapSet ([] : List (String × α)) k v = [(k, v)] := by
        unfold mapSet mapHas
        simp
      rw [h0, mapGet_cons_of_eq _ _ _ (by simp)]
  | cons q rest ih =>
      by_cases hq : (q.1 == k) = true
      · rw [mapSet_cons_of_eq q rest k v hq, mapGet_cons_of_eq _ _ _ (by simp)]
      · rw [mapSet_cons_of_ne q rest k v (by simpa using hq),
          mapGet_cons_of_ne _ _ _ (by simpa using hq)]
        exact ih

lemma mapGet_mapSet_ne {α : Type} (m : List (String × α)) (k k' : String) (v : α)
    (hne : k' ≠ k) : mapGet (mapSet m k v) k' = mapGet m k' := by
  have hkk : (k == k') = false := by
    simp only [beq_eq_false_iff_ne, ne_eq]
    exact fun h => hne h.symm
  induction m with
  | nil =>
      have h0 : mapSet ([] : List (String × α)) k v = [(k, v)] := by
        unfold mapSet mapHas
        simp
      rw [h0, mapGet_cons_of_ne _ _ _ hkk]
  | cons q rest ih =>
      by_cases hq : (q.1 == k) = true
      · rw [mapSet_cons_of_eq q rest k v hq, mapGet_cons_of_ne _ _ _ hkk]
        have hq' : q.1 = k := by simpa using hq
        have hqk' : (q.1 == k') = false := by
          simp only [beq_eq_false_iff_ne, ne_eq, hq']
          exact fun h => hne h.symm
        rw [mapGet_cons_of_ne q rest k' hqk']
        -- the remaining replace-all map touches only key-k entries, invisible to k'
        clear ih hq hq'
        induction rest with
        | nil => rfl
        | cons r tl ihr =>
            by_cases hr : (r.1 == k) = true
            · have hr' : r.1 = k := by simpa using hr
              have hrk' : (r.1 == k') = false := by
                simp only [beq_eq_false_iff_ne, ne_eq, hr']
                exact fun h => hne h.symm
              rw [List.map_cons, if_pos hr, mapGet_cons_of_ne _ _ _ hkk,
                mapGet_cons_of_ne r tl k' hrk']
              exact ihr
            · rw [List.map_cons, if_neg hr]
              by_cases hr2 : (r.1 == k') = true
              · rw [mapGet_cons_of_eq _ _ _ hr2, mapGet_cons_of_eq r tl k' hr2]
              · rw [mapGet_cons_of_ne _ _ _ (by simpa using hr2),
                  mapGet_cons_of_ne r tl k' (by simpa using hr2)]
                exact ihr
      · rw [mapSet_cons_of_ne q rest k v (by simpa using hq)]
        by_cases hq2 : (q.1 == k') = true
        · rw [mapGet_cons_of_eq _ _ _ hq2, mapGet_cons_of_eq q rest k' hq2]
        · rw [mapGet_cons_of_ne _ _ _ (by simpa using hq2),
            mapGet_cons_of_ne q rest k' (by simpa using hq2)]
          exact ih

lemma mapHas_eq_isSome_mapGet {α : Type} (m : List (String × α)) (k : String) :
    mapHas m k = (mapGet m k).isSome := by
  induction m with
  | nil => rfl
  | cons q rest ih =>
      by_cases hq : (q.1 == k) = true
      · rw [mapGet_cons_of_eq q rest k hq]
        unfold mapHas
        simp [List.any_cons, hq]
      · rw [mapGet_cons_of_ne q rest k (by simpa using hq)]
        unfold mapHas at ih ⊢
        simp only [List.any_cons, Bool.not_eq_true] at *
        simp [hq, ih]

lemma mapHas_mapSet_self {α : Type} (m : List (String × α)) (k : String) (v : α) :
    mapHas (mapSet m k v) k = true := by
  rw [mapHas_eq_isSome_mapGet, mapGet_mapSet_self]
  rfl

lemma mapHas_mapSet_ne {α : Type} (m : List (String × α)) (k k' : String) (v : α)
    (hne : k' ≠ k) : mapHas (mapSet m k v) k' = mapHas m k' := by
  rw [mapHas_eq_isSome_mapGet, mapHas_eq_isSome_mapGet, mapGet_mapSet_ne m k k' v hne]

lemma mapHas_mapDelete_self {α : Type} (m : List (String × α)) (k : String) :
    mapHas (mapDelete m k) k = false := by
  unfold mapHas mapDelete
  rw [List.any_eq_false]
  intro p hp
  rw [List.mem_filter] at hp
  have h2 := hp.2
  simp only [bne_iff_ne, ne_eq] at h2
  simp only [beq_iff_eq]
  exact h2

lemma mapGet_mem {α : Type} (m : List (String × α)) (k : String) (v : α)
    (h : mapGet m k = some v) : (k, v) ∈ m := by
  unfold mapGet at h
  rcases hf : m.find? (fun p => p.1 == k) with _ | p
  · rw [hf] at h; simp at h
  · rw [hf] at h
    simp at h
    have hp := List.find?_some hf
    have hm := List.mem_of_find?_eq_some hf
    have hk : p.1 = k := by simpa using hp
    have hpv : p = (k, v) := by
      cases p with
      | mk a b =>
          simp only at hk h
          rw [hk, h]
    rwa [hpv] at hm

/-! ## Server data model (`routes.ts`) -/

/-- `PlayerState` as stored by the server (`routes.ts`). -/
structure SrvPlayerState where
  id : String
  position : Vec3
  rotation : Vec3
  velocity : Vec3
  fuel : ℚ
  throttle : ℚ
  aircraftType : String
deriving DecidableEq, Repr

/-- `Lobby` record of `routes.ts`. -/
structure Lobby where
  id : String
  name : String
  createdAt : ℕ
  players : List (String × SrvPlayerState)
deriving DecidableEq, Repr

/-- `LobbySummary` of `routes.ts`. -/
structure LobbySummary where
  id : String
  name : String
  playerCount : ℕ
  createdAt : ℕ
deriving DecidableEq, Repr

/-- The `updateState` handler of `routes.ts`:
`players.set(socket.id, { ...state, id: socket.id })` and the
`playerUpdate` payload `{ ...state, id: socket.id }`. Returns the updated
lobby and the broadcast payload. -/
def updateStateHandler (lobby : Lobby) (socketId : String) (st : SrvPlayerState) :
    Lobby × SrvPlayerState :=
  let stamped := { st with id := socketId }
  ({ lobby with players := mapSet lobby.players socketId stamped }, stamped)

/-- `socket.to(room).emit(...)` delivery: every connected socket that has
joined `room`, except the sender. Connections are (socketId, joinedRoom)
pairs; each socket joins its lobby's id on connect (`socket.join(lobby.id)`). -/
def emitToRoom (conns : List (String × String)) (room sender : String) : List String :=
  (conns.filter (fun c => c.2 == room && c.1 != sender)).map (fun c => c.1)

lemma mem_emitToRoom (conns : List (String × String)) (room sender t : String) :
    t ∈ emitToRoom conns room sender ↔ ((t, room) ∈ conns ∧ t ≠ sender) := by
  unfold emitToRoom
  simp only [List.mem_map, List.mem_filter, Bool.and_eq_true, bne_iff_ne, ne_eq, beq_iff_eq]
  constructor
  · rintro ⟨⟨a, b⟩, ⟨hm, hb, ha⟩, rfl⟩
    subst hb
    exact ⟨hm, ha⟩
  · rintro ⟨hm, hne⟩
    exact ⟨(t, room), ⟨hm, rfl, hne⟩, rfl⟩

/-- C2: the `updateState` handler stores and broadcasts the payload with the
sender's server-assigned socket id: two payloads that differ only in their
`id` field produce an identical stored registry entry and an identical
broadcast; the stored entry and the broadcast payload carry `socketId`; and
the broadcast reaches exactly the sockets that joined the sender's lobby
room other than the sender — never the sender, never a socket of a
different lobby. -/
theorem C2_updateState_id_stamping_and_scope
    (lobby : Lobby) (socketId : String) (s1 s2 : SrvPlayerState)
    (conns : List (String × String))
    (hpos : s1.position = s2.position) (hrot : s1.rotation = s2.rotation)
    (hvel : s1.velocity = s2.velocity) (hfuel : s1.fuel = s2.fuel)
    (hthr : s1.throttle = s2.throttle) (hair : s1.aircraftType = s2.aircraftType) :
    updateStateHandler lobby socketId s1 = updateStateHandler lobby socketId s2 ∧
    (updateStateHandler lobby socketId s1).2.id = socketId ∧
    mapGet (updateStateHandler lobby socketId s1).1.players socketId
      = some { s1 with id := socketId } ∧
    (∀ t, t ∈ emitToRoom conns lobby.id socketId ↔
      ((t, lobby.id) ∈ conns ∧ t ≠ socketId)) := by
  have hstamp : ({ s1 with id := socketId } : SrvPlayerState)
      = { s2 with id := socketId } := by
    cases s1; cases s2
    simp only at hpos hrot hvel hfuel hthr hair
    simp [hpos, hrot, hvel, hfuel, hthr, hair]
  refine ⟨?_, rfl, ?_, fun t => mem_emitToRoom conns lobby.id socketId t⟩
  · unfold updateStateHandler
    rw [hstamp]
  · unfold updateStateHandler
    exact mapGet_mapSet_self _ _ _

/-- Witness for C2 at concrete payloads differing only in `id`. -/
theorem C2_witness :
    (updateStateHandler ⟨"open-skies", "Open Skies", 0, []⟩ "sockA"
        ⟨"spoofed", ⟨1, 2, 3⟩, ⟨0, 0, 0⟩, ⟨4, 5, 6⟩, 50, 1, "cessna"⟩
      = updateStateHandler ⟨"open-skies", "Open Skies", 0, []⟩ "sockA"
        ⟨"other", ⟨1, 2, 3⟩, ⟨0, 0, 0⟩, ⟨4, 5, 6⟩, 50, 1, "cessna"⟩) ∧
    (updateStateHandler ⟨"open-skies", "Open Skies", 0, []⟩ "sockA"
        ⟨"spoofed", ⟨1, 2, 3⟩, ⟨0, 0, 0⟩, ⟨4, 5, 6⟩, 50, 1, "cessna"⟩).2.id = "sockA" ∧
    mapGet (updateStateHandler ⟨"open-skies", "Open Skies", 0, []⟩ "sockA"
        ⟨"spoofed", ⟨1, 2, 3⟩, ⟨0, 0, 0⟩, ⟨4, 5, 6⟩, 50, 1, "cessna"⟩).1.players "sockA"
      = some ⟨"sockA", ⟨1, 2, 3⟩, ⟨0, 0, 0⟩, ⟨4, 5, 6⟩, 50, 1, "cessna"⟩ ∧
    (∀ t, t ∈ emitToRoom [("sockA", "open-skies"), ("sockB", "open-skies"),
        ("sockC", "lagoon-1234")] "open-skies" "sockA" ↔
      ((t, "open-skies") ∈ [("sockA", "open-skies"), ("sockB", "open-skies"),
        ("sockC", "lagoon-1234")] ∧ t ≠ "sockA")) := by
  exact C2_updateState_id_stamping_and_scope
    ⟨"open-skies", "Open Skies", 0, []⟩ "sockA"
    ⟨"spoofed", ⟨1, 2, 3⟩, ⟨0, 0, 0⟩, ⟨4, 5, 6⟩, 50, 1, "cessna"⟩
    ⟨"other", ⟨1, 2, 3⟩, ⟨0, 0, 0⟩, ⟨4, 5, 6⟩, 50, 1, "cessna"⟩
    [("sockA", "open-skies"), ("sockB", "open-skies"), ("sockC", "lagoon-1234")]
    rfl rfl rfl rfl rfl rfl

/-! ## Lobby registry lifecycle (`routes.ts`) -/

def DEFAULT_LOBBY_ID : String := "open-skies"

def DEFAULT_LOBBY_NAME : String := "Open Skies"

/-- The global `lobbies` map, keyed by lobby id. -/
abbrev Registry := List (String × Lobby)

/-- `ensureLobby`: create the lobby with an empty player map if absent. -/
def ensureLobby (L : Registry) (id name : String) (now : ℕ) : Registry :=
  if mapHas L id then L else mapSet L id ⟨id, name, now, []⟩

/-- `getLobbySummary`: live projection; `playerCount` is the player map size. -/
def getLobbySummary (lobby : Lobby) : LobbySummary :=
  ⟨lobby.id, lobby.name, lobby.players.length, lobby.createdAt⟩

/-- `cleanupLobby`: delete the lobby when present, empty, and not the
default lobby; otherwise a no-op. -/
def cleanupLobby (L : Registry) (lobbyId : String) : Registry :=
  match mapGet L lobbyId with
  | none => L
  | some lobby =>
      if lobby.id = DEFAULT_LOBBY_ID then L
      else if lobby.players.length = 0 then mapDelete L lobbyId
      else L

/-- The `disconnect` handler's registry effect: the connection's lobby loses
the player keyed by the socket id (`players.delete(socket.id)`), then
`cleanupLobby(lobby.id)` runs. -/
def disconnectHandler (L : Registry) (lobbyId socketId : String) : Registry :=
  match mapGet L lobbyId with
  | none => L
  | some lobby =>
      let lobby2 := { lobby with players := mapDelete lobby.players socketId }
      cleanupLobby (mapSet L lobbyId lobby2) lobbyId

/-- `GET /api/lobbies`: ensure the default lobby, then summarize every lobby
in insertion order; returns the updated registry and the response body. -/
def listLobbies (L : Registry) (now : ℕ) : Registry × List LobbySummary :=
  let L2 := ensureLobby L DEFAULT_LOBBY_ID DEFAULT_LOBBY_NAME now
  (L2, L2.map (fun p => getLobbySummary p.2))

/-- Registry keys agree with each stored lobby's own `id` field; the real
registry only ever inserts a lobby under its own id. -/
def keyConsistent (L : Registry) : Prop := ∀ p ∈ L, p.2.id = p.1

lemma keyConsistent_mapSet (L : Registry) (k : String) (v : Lobby)
    (hk : keyConsistent L) (hv : v.id = k) : keyConsistent (mapSet L k v) := by
  intro p hp
  unfold mapSet at hp
  by_cases h : mapHas L k = true
  · rw [if_pos h] at hp
    rw [List.mem_map] at hp
    obtain ⟨q, hq, hfq⟩ := hp
    by_cases hqk : (q.1 == k) = true
    · rw [if_pos hqk] at hfq
      rw [← hfq]
      exact hv
    · rw [if_neg hqk] at hfq
      rw [← hfq]
      exact hk q hq
  · rw [if_neg h] at hp
    rw [List.mem_append] at hp
    rcases hp with hp | hp
    · exact hk p hp
    · rw [List.mem_singleton] at hp
      rw [hp]
      exact hv

lemma keyConsistent_mapDelete (L : Registry) (k : String)
    (hk : keyConsistent L) : keyConsistent (mapDelete L k) := by
  intro p hp
  unfold mapDelete at hp
  rw [List.mem_filter] at hp
  exact hk p hp.1

lemma keyConsistent_ensureLobby (L : Registry) (id name : String) (now : ℕ)
    (hk : keyConsistent L) : keyConsistent (ensureLobby L id name now) := by
  unfold ensureLobby
  by_cases h : mapHas L id = true
  · rw [if_pos h]; exact hk
  · rw [if_neg h]; exact keyConsistent_mapSet L id ⟨id, name, now, []⟩ hk rfl

lemma cleanupLobby_get_some (L : Registry) (lid : String) (lb : Lobby)
    (h : mapGet L lid = some lb) :
    cleanupLobby L lid = if lb.id = DEFAULT_LOBBY_ID then L
      else if lb.players.length = 0 then mapDelete L lid else L := by
  unfold cleanupLobby
  rw [h]

lemma cleanupLobby_get_none (L : Registry) (lid : String)
    (h : mapGet L lid = none) : cleanupLobby L lid = L := by
  unfold cleanupLobby
  rw [h]

lemma disconnectHandler_get_some (L : Registry) (lid sock : String) (lb : Lobby)
    (h : mapGet L lid = some lb) :
    disconnectHandler L lid sock
      = cleanupLobby (mapSet L lid { lb with players := mapDelete lb.players sock }) lid := by
  unfold disconnectHandler
  rw [h]

lemma keyConsistent_cleanupLobby (L : Registry) (lid : String)
    (hk : keyConsistent L) : keyConsistent (cleanupLobby L lid) := by
  rcases h : mapGet L lid with _ | lb
  · rw [cleanupLobby_get_none L lid h]
    exact hk
  · rw [cleanupLobby_get_some L lid lb h]
    by_cases h1 : lb.id = DEFAULT_LOBBY_ID
    · rw [if_pos h1]
      exact hk
    · rw [if_neg h1]
      by_cases h2 : lb.players.length = 0
      · rw [if_pos h2]
        exact keyConsistent_mapDelete L lid hk
      · rw [if_neg h2]
        exact hk

lemma mapHas_ensureLobby_self (L : Registry) (id name : String) (now : ℕ) :
    mapHas (ensureLobby L id name now) id = true := by
  unfold ensureLobby
  by_cases h : mapHas L id = true
  · rw [if_pos h]
    exact h
  · rw [if_neg h]
    exact mapHas_mapSet_self L id _

lemma mapHas_ensureLobby_ne (L : Registry) (id name k : String) (now : ℕ)
    (hne : k ≠ id) : mapHas (ensureLobby L id name now) k = mapHas L k := by
  unfold ensureLobby
  by_cases h : mapHas L id = true
  · rw [if_pos h]
  · rw [if_neg h]
    exact mapHas_mapSet_ne L id k _ hne

lemma ensureLobby_of_has (L : Registry) (id name : String) (now : ℕ)
    (h : mapHas L id = true) : ensureLobby L id name now = L := by
  unfold ensureLobby
  rw [if_pos h]

lemma summaries_ids (L : Registry) (hk : keyConsistent L) :
    (L.map (fun p => getLobbySummary p.2)).map (fun s => s.id)
      = L.map (fun p => p.1) := by
  rw [List.map_map]
  exact List.map_congr_left (fun p hp => hk p hp)

/-- C3: `cleanupLobby` deletes a present lobby exactly when it is empty and
is not the default lobby (and is a no-op on absent ids); `ensureLobby`
guarantees the default lobby is present afterwards; consequently
disconnecting the sole occupant of a non-default lobby removes it from
later list results, while disconnecting the sole occupant of the default
lobby leaves it listed with `playerCount` 0. -/
theorem C3_cleanup_ensure_default_lobby (L : Registry) (hk : keyConsistent L) (now : ℕ) :
    (∀ lid lb, mapGet L lid = some lb →
      (mapHas (cleanupLobby L lid) lid = false ↔
        (lb.players = [] ∧ lid ≠ DEFAULT_LOBBY_ID))) ∧
    (∀ lid, mapGet L lid = none → cleanupLobby L lid = L) ∧
    mapHas (ensureLobby L DEFAULT_LOBBY_ID DEFAULT_LOBBY_NAME now) DEFAULT_LOBBY_ID = true ∧
    (∀ lid sock lb pp now2, mapGet L lid = some lb → lb.players = [(sock, pp)] →
      lid ≠ DEFAULT_LOBBY_ID →
      lid ∉ ((listLobbies (disconnectHandler L lid sock) now2).2.map (fun s => s.id))) ∧
    (∀ sock lb pp now2, mapGet L DEFAULT_LOBBY_ID = some lb →
      lb.players = [(sock, pp)] →
      ∃ s ∈ (listLobbies (disconnectHandler L DEFAULT_LOBBY_ID sock) now2).2,
        s.id = DEFAULT_LOBBY_ID ∧ s.playerCount = 0) := by
  have hhas_of_get : ∀ lid (lb : Lobby), mapGet L lid = some lb → mapHas L lid = true := by
    intro lid lb h
    rw [mapHas_eq_isSome_mapGet, h]
    rfl
  have hid_of_get : ∀ lid lb, mapGet L lid = some lb → lb.id = lid := by
    intro lid lb h
    exact hk (lid, lb) (mapGet_mem L lid lb h)
  refine ⟨?_, ?_, mapHas_ensureLobby_self L _ _ now, ?_, ?_⟩
  · -- (a) deletion characterization
    intro lid lb hget
    have hlbid := hid_of_get lid lb hget
    rw [cleanupLobby_get_some L lid lb hget]
    by_cases h1 : lb.id = DEFAULT_LOBBY_ID
    · rw [if_pos h1, hhas_of_get lid lb hget]
      constructor
      · intro hcontra
        exact absurd hcontra (by simp)
      · rintro ⟨-, hne⟩
        have : lid = DEFAULT_LOBBY_ID := by rw [← hlbid]; exact h1
        exact absurd this hne
    · rw [if_neg h1]
      by_cases h2 : lb.players.length = 0
      · rw [if_pos h2, mapHas_mapDelete_self]
        refine ⟨fun _ => ⟨List.length_eq_zero.mp h2, ?_⟩, fun _ => rfl⟩
        rw [← hlbid]
        exact h1
      · rw [if_neg h2, hhas_of_get lid lb hget]
        constructor
        · intro hcontra
          exact absurd hcontra (by simp)
        · rintro ⟨hnil, -⟩
          exact absurd (by rw [hnil]; rfl) h2
  · -- (b) no-op on absent ids
    intro lid hget
    exact cleanupLobby_get_none L lid hget
  · -- (d) sole occupant of a non-default lobby
    intro lid sock lb pp now2 hget hsolo hnd
    have hlbid := hid_of_get lid lb hget
    have hdel : mapDelete lb.players sock = [] := by
      rw [hsolo]
      unfold mapDelete
      simp
    have hstep := disconnectHandler_get_some L lid sock lb hget
    set lobby2 : Lobby := { lb with players := mapDelete lb.players sock } with hlobby2
    have hl2id : lobby2.id = lid := hlbid
    have hl2pl : lobby2.players = [] := hdel
    have hget2 : mapGet (mapSet L lid lobby2) lid = some lobby2 :=
      mapGet_mapSet_self L lid lobby2
    have hclean : cleanupLobby (mapSet L lid lobby2) lid
        = mapDelete (mapSet L lid lobby2) lid := by
      rw [cleanupLobby_get_some _ lid lobby2 hget2, if_neg (by rw [hl2id]; exact hnd),
        if_pos (by rw [hl2pl]; rfl)]
    have hhas2 : mapHas (disconnectHandler L lid sock) lid = false := by
      rw [hstep, hclean]
      exact mapHas_mapDelete_self _ lid
    have hkc2 : keyConsistent (disconnectHandler L lid sock) := by
      rw [hstep]
      exact keyConsistent_cleanupLobby _ _ (keyConsistent_mapSet L lid lobby2 hk hl2id)
    have hkc3 : keyConsistent (ensureLobby (disconnectHandler L lid sock)
        DEFAULT_LOBBY_ID DEFAULT_LOBBY_NAME now2) :=
      keyConsistent_ensureLobby _ _ _ now2 hkc2
    have hhas3 : mapHas (ensureLobby (disconnectHandler L lid sock)
        DEFAULT_LOBBY_ID DEFAULT_LOBBY_NAME now2) lid = false := by
      rw [mapHas_ensureLobby_ne _ _ _ lid now2 hnd]
      exact hhas2
    intro hmem
    unfold listLobbies at hmem
    simp only at hmem
    rw [summaries_ids _ hkc3, ← mapHas_iff_mem_keys, hhas3] at hmem
    exact absurd hmem (by simp)
  · -- (e) sole occupant of the default lobby
    intro sock lb pp now2 hget hsolo
    have hlbid := hid_of_get DEFAULT_LOBBY_ID lb hget
    have hdel : mapDelete lb.players sock = [] := by
      rw [hsolo]
      unfold mapDelete
      simp
    have hstep := disconnectHandler_get_some L DEFAULT_LOBBY_ID sock lb hget
    set lobby2 : Lobby := { lb with players := mapDelete lb.players sock } with hlobby2
    have hl2id : lobby2.id = DEFAULT_LOBBY_ID := hlbid
    have hl2pl : lobby2.players = [] := hdel
    have hget2 : mapGet (mapSet L DEFAULT_LOBBY_ID lobby2) DEFAULT_LOBBY_ID
        = some lobby2 := mapGet_mapSet_self L DEFAULT_LOBBY_ID lobby2
    have hclean : cleanupLobby (mapSet L DEFAULT_LOBBY_ID lobby2) DEFAULT_LOBBY_ID
        = mapSet L DEFAULT_LOBBY_ID lobby2 := by
      rw [cleanupLobby_get_some _ _ lobby2 hget2, if_pos hl2id]
    have hL2 : disconnectHandler L DEFAULT_LOBBY_ID sock
        = mapSet L DEFAULT_LOBBY_ID lobby2 := by
      rw [hstep, hclean]
    have hhas2 : mapHas (mapSet L DEFAULT_LOBBY_ID lobby2) DEFAULT_LOBBY_ID = true :=
      mapHas_mapSet_self L DEFAULT_LOBBY_ID lobby2
    have hens : ensureLobby (mapSet L DEFAULT_LOBBY_ID lobby2)
        DEFAULT_LOBBY_ID DEFAULT_LOBBY_NAME now2 = mapSet L DEFAULT_LOBBY_ID lobby2 :=
      ensureLobby_of_has _ _ _ now2 hhas2
    refine ⟨getLobbySummary lobby2, ?_, ?_, ?_⟩
    · unfold listLobbies
      simp only
      rw [hL2, hens]
      exact List.mem_map.mpr ⟨(DEFAULT_LOBBY_ID, lobby2), mapGet_mem _ _ _ hget2, rfl⟩
    · exact hl2id
    · show lobby2.players.length = 0
      rw [hl2pl]
      rfl

/-- A concrete registry holding the default lobby and one user lobby. -/
def sampleRegistry : Registry :=
  [(DEFAULT_LOBBY_ID, ⟨DEFAULT_LOBBY_ID, DEFAULT_LOBBY_NAME, 0, []⟩),
   ("my-lobby-1234", ⟨"my-lobby-1234", "My Lobby", 5, []⟩)]

/-- Witness for C3 on a concrete two-lobby registry. -/
theorem C3_witness :
    keyConsistent sampleRegistry ∧
    ((∀ lid lb, mapGet sampleRegistry lid = some lb →
      (mapHas (cleanupLobby sampleRegistry lid) lid = false ↔
        (lb.players = [] ∧ lid ≠ DEFAULT_LOBBY_ID))) ∧
    (∀ lid, mapGet sampleRegistry lid = none →
      cleanupLobby sampleRegistry lid = sampleRegistry) ∧
    mapHas (ensureLobby sampleRegistry DEFAULT_LOBBY_ID DEFAULT_LOBBY_NAME 9)
      DEFAULT_LOBBY_ID = true ∧
    (∀ lid sock lb pp now2, mapGet sampleRegistry lid = some lb →
      lb.players = [(sock, pp)] → lid ≠ DEFAULT_LOBBY_ID →
      lid ∉ ((listLobbies (disconnectHandler sampleRegistry lid sock) now2).2.map
        (fun s => s.id))) ∧
    (∀ sock lb pp now2, mapGet sampleRegistry DEFAULT_LOBBY_ID = some lb →
      lb.players = [(sock, pp)] →
      ∃ s ∈ (listLobbies (disconnectHandler sampleRegistry DEFAULT_LOBBY_ID sock)
          now2).2,
        s.id = DEFAULT_LOBBY_ID ∧ s.playerCount = 0)) :=
  ⟨by unfold keyConsistent sampleRegistry; decide,
   C3_cleanup_ensure_default_lobby sampleRegistry
     (by unfold keyConsistent sampleRegistry; decide) 9⟩

/-! ## Lobby creation (`createLobby` of `routes.ts`) -/

/-- A character kept by the slug regex `[^a-z0-9]+`. -/
def isSlugChar (c : Char) : Bool := ('a' ≤ c && c ≤ 'z') || ('0' ≤ c && c ≤ '9')

/-- `replace(/[^a-z0-9]+/g, "-")`: each maximal run of non-slug characters
becomes a single dash. The flag records whether we are inside such a run. -/
def collapseNonSlug : Bool → List Char → List Char
  | _, [] => []
  | inRun, c :: rest =>
      if isSlugChar c then c :: collapseNonSlug false rest
      else if inRun then collapseNonSlug true rest
      else '-' :: collapseNonSlug true rest

/-- `replace(/^-+|-+$/g, "")`: drop leading and trailing dash runs. -/
def trimDashes (l : List Char) : List Char :=
  ((l.dropWhile (fun c => c == '-')).reverse.dropWhile (fun c => c == '-')).reverse

/-- `name.toLowerCase().replace(/[^a-z0-9]+/g, "-").replace(/^-+|-+$/g, "")`. -/
def slugify (name : String) : String :=
  String.mk (trimDashes (collapseNonSlug false (name.toList.map Char.toLower)))

/-- The template `${baseId || "lobby"}-${suffix}` of `createLobby`. -/
def lobbyIdFrom (name : String) (suffix : ℕ) : String :=
  (if slugify name == "" then "lobby" else slugify name) ++ "-" ++ toString suffix

/-- `createLobby`: draw suffixes from the stream until the id is unused,
then insert a fresh lobby with an empty player map. The stream models the
successive values of `Math.floor(Math.random() * 9000 + 1000)`; `none`
means the stream was exhausted before a free id appeared (the JS `while`
loop would keep drawing). -/
def createLobby (L : Registry) (name : String) (now : ℕ) :
    List ℕ → Option (Registry × Lobby)
  | [] => none
  | s :: rest =>
      let finalId := lobbyIdFrom name s
      if mapHas L finalId then createLobby L name now rest
      else
        let lobby : Lobby := ⟨finalId, name, now, []⟩
        some (mapSet L finalId lobby, lobby)

lemma createLobby_spec (L : Registry) (name : String) (now : ℕ)
    (suffixes : List ℕ) (L2 : Registry) (lobby : Lobby)
    (h : createLobby L name now suffixes = some (L2, lobby)) :
    (∃ s ∈ suffixes, lobby.id = lobbyIdFrom name s) ∧
    mapHas L lobby.id = false ∧ lobby.players = [] ∧ lobby.name = name ∧
    L2 = mapSet L lobby.id lobby := by
  induction suffixes with
  | nil => exact absurd h (by simp [createLobby])
  | cons s rest ih =>
      rw [createLobby] at h
      by_cases hs : mapHas L (lobbyIdFrom name s) = true
      · rw [if_pos hs] at h
        obtain ⟨⟨s2, hs2, hid⟩, hfree, hpl, hnm, hL2⟩ := ih h
        exact ⟨⟨s2, List.mem_cons_of_mem s hs2, hid⟩, hfree, hpl, hnm, hL2⟩
      · rw [if_neg hs] at h
        simp only [Option.some.injEq, Prod.mk.injEq] at h
        obtain ⟨hL2, hlobby⟩ := h
        refine ⟨⟨s, List.mem_cons_self s rest, by rw [← hlobby]⟩, ?_, by rw [← hlobby],
          by rw [← hlobby], ?_⟩
        · rw [← hlobby]
          simp only [Bool.not_eq_true] at hs
          exact hs
        · rw [← hL2, ← hlobby]

lemma createLobby_isSome (L : Registry) (name : String) (now : ℕ)
    (suffixes : List ℕ)
    (h : ∃ s ∈ suffixes, mapHas L (lobbyIdFrom name s) = false) :
    ∃ r, createLobby L name now suffixes = some r := by
  induction suffixes with
  | nil => simp at h
  | cons s rest ih =>
      rw [createLobby]
      by_cases hs : mapHas L (lobbyIdFrom name s) = true
      · rw [if_pos hs]
        refine ih ?_
        obtain ⟨s2, hs2, hfree⟩ := h
        rcases List.mem_cons.mp hs2 with rfl | hmem
        · rw [hs] at hfree
          exact absurd hfree (by simp)
        · exact ⟨s2, hmem, hfree⟩
      · rw [if_neg hs]
        exact ⟨_, rfl⟩

/-- C7 counterexample: for `name = "!!!"` the slug is empty and the id
falls back to the `"lobby"` stem, so the id is not the slugified name
followed by a dash and the suffix. -/
theorem C7_counterexample :
    (createLobby [] "!!!" 0 [1234]).map (fun r => r.2.id) = some "lobby-1234" ∧
    slugify "!!!" ++ "-" ++ toString 1234 = "-1234" ∧
    ("lobby-1234" : String) ≠ "-1234" := by
  refine ⟨?_, ?_, by decide⟩
  · rfl
  · rfl

/-- C7 (amended): every successful `create(name)` call returns a lobby whose
id is the slugified name — or the stem `"lobby"` when the slug is empty —
followed by `"-"` and a random four-digit suffix drawn from the stream, the
id is distinct from every pre-existing lobby id, the lobby is registered
with an empty player map, and a second call with the same name yields a
distinct id with the same stem, both visible via the list endpoint. -/
theorem C7_createLobby_fresh_slug_ids (L L2 L3 : Registry) (name : String)
    (now now2 now3 : ℕ) (ss ss2 : List ℕ) (l1 l2 : Lobby)
    (hk : keyConsistent L)
    (hr1 : ∀ s ∈ ss, 1000 ≤ s ∧ s ≤ 9999)
    (hr2 : ∀ s ∈ ss2, 1000 ≤ s ∧ s ≤ 9999)
    (h1 : createLobby L name now ss = some (L2, l1))
    (h2 : createLobby L2 name now2 ss2 = some (L3, l2)) :
    (∃ s, 1000 ≤ s ∧ s ≤ 9999 ∧ l1.id = lobbyIdFrom name s) ∧
    (∃ s, 1000 ≤ s ∧ s ≤ 9999 ∧ l2.id = lobbyIdFrom name s) ∧
    mapHas L l1.id = false ∧ l1.players = [] ∧ L2 = mapSet L l1.id l1 ∧
    l1.id ≠ l2.id ∧
    l1.id ∈ ((listLobbies L3 now3).2.map (fun s => s.id)) ∧
    l2.id ∈ ((listLobbies L3 now3).2.map (fun s => s.id)) := by
  obtain ⟨⟨s1, hs1, hid1⟩, hfree1, hpl1, hnm1, hL2⟩ :=
    createLobby_spec L name now ss L2 l1 h1
  obtain ⟨⟨s2, hs2, hid2⟩, hfree2, hpl2, hnm2, hL3⟩ :=
    createLobby_spec L2 name now2 ss2 L3 l2 h2
  have hhas1 : mapHas L2 l1.id = true := by
    rw [hL2]
    exact mapHas_mapSet_self L l1.id l1
  have hne : l1.id ≠ l2.id := by
    intro he
    rw [← he] at hfree2
    rw [hhas1] at hfree2
    exact absurd hfree2 (by simp)
  have hk2 : keyConsistent L2 := by
    rw [hL2]
    refine keyConsistent_mapSet L l1.id l1 hk rfl
  have hk3 : keyConsistent L3 := by
    rw [hL3]
    refine keyConsistent_mapSet L2 l2.id l2 hk2 rfl
  have hhas31 : mapHas L3 l1.id = true := by
    rw [hL3, mapHas_mapSet_ne L2 l2.id l1.id l2 hne]
    exact hhas1
  have hhas32 : mapHas L3 l2.id = true := by
    rw [hL3]
    exact mapHas_mapSet_self L2 l2.id l2
  have hkE : keyConsistent (ensureLobby L3 DEFAULT_LOBBY_ID DEFAULT_LOBBY_NAME now3) :=
    keyConsistent_ensureLobby L3 _ _ now3 hk3
  have hmemlist : ∀ lid, mapHas L3 lid = true →
      lid ∈ ((listLobbies L3 now3).2.map (fun s => s.id)) := by
    intro lid hlid
    unfold listLobbies
    simp only
    rw [summaries_ids _ hkE, ← mapHas_iff_mem_keys]
    by_cases hd : lid = DEFAULT_LOBBY_ID
    · rw [hd]
      exact mapHas_ensureLobby_self L3 _ _ now3
    · rw [mapHas_ensureLobby_ne L3 _ _ lid now3 hd]
      exact hlid
  refine ⟨⟨s1, (hr1 s1 hs1).1, (hr1 s1 hs1).2, hid1⟩,
    ⟨s2, (hr2 s2 hs2).1, (hr2 s2 hs2).2, hid2⟩,
    hfree1, hpl1, hL2, hne, hmemlist l1.id hhas31, hmemlist l2.id hhas32⟩

/-- Witness for C7: two successive creations of `"My Lobby"` with suffix
streams 1234 and 1234,5678 (the second stream collides once and retries). -/
theorem C7_witness :
    keyConsistent [] ∧
    (∀ s ∈ [1234], 1000 ≤ s ∧ s ≤ 9999) ∧
    (∀ s ∈ [1234, 5678], 1000 ≤ s ∧ s ≤ 9999) ∧
    createLobby [] "My Lobby" 0 [1234]
      = some ([("my-lobby-1234", ⟨"my-lobby-1234", "My Lobby", 0, []⟩)],
          ⟨"my-lobby-1234", "My Lobby", 0, []⟩) ∧
    createLobby [("my-lobby-1234", ⟨"my-lobby-1234", "My Lobby", 0, []⟩)]
        "My Lobby" 7 [1234, 5678]
      = some ([("my-lobby-1234", ⟨"my-lobby-1234", "My Lobby", 0, []⟩),
          ("my-lobby-5678", ⟨"my-lobby-5678", "My Lobby", 7, []⟩)],
          ⟨"my-lobby-5678", "My Lobby", 7, []⟩) ∧
    ((∃ s, 1000 ≤ s ∧ s ≤ 9999 ∧
        (⟨"my-lobby-1234", "My Lobby", 0, []⟩ : Lobby).id = lobbyIdFrom "My Lobby" s) ∧
     (∃ s, 1000 ≤ s ∧ s ≤ 9999 ∧
        (⟨"my-lobby-5678", "My Lobby", 7, []⟩ : Lobby).id = lobbyIdFrom "My Lobby" s) ∧
     mapHas ([] : Registry) (⟨"my-lobby-1234", "My Lobby", 0, []⟩ : Lobby).id = false ∧
     (⟨"my-lobby-1234", "My Lobby", 0, []⟩ : Lobby).players = [] ∧
     [("my-lobby-1234", ⟨"my-lobby-1234", "My Lobby", 0, []⟩)]
       = mapSet ([] : Registry) (⟨"my-lobby-1234", "My Lobby", 0, []⟩ : Lobby).id
           ⟨"my-lobby-1234", "My Lobby", 0, []⟩ ∧
     (⟨"my-lobby-1234", "My Lobby", 0, []⟩ : Lobby).id
       ≠ (⟨"my-lobby-5678", "My Lobby", 7, []⟩ : Lobby).id ∧
     (⟨"my-lobby-1234", "My Lobby", 0, []⟩ : Lobby).id
       ∈ ((listLobbies [("my-lobby-1234", ⟨"my-lobby-1234", "My Lobby", 0, []⟩),
            ("my-lobby-5678", ⟨"my-lobby-5678", "My Lobby", 7, []⟩)] 9).2.map
           (fun s => s.id)) ∧
     (⟨"my-lobby-5678", "My Lobby", 7, []⟩ : Lobby).id
       ∈ ((listLobbies [("my-lobby-1234", ⟨"my-lobby-1234", "My Lobby", 0, []⟩),
            ("my-lobby-5678", ⟨"my-lobby-5678", "My Lobby", 7, []⟩)] 9).2.map
           (fun s => s.id))) := by
  refine ⟨by unfold keyConsistent; simp, by decide, by decide, by decide, by decide, ?_⟩
  exact C7_createLobby_fresh_slug_ids []
    [("my-lobby-1234", ⟨"my-lobby-1234", "My Lobby", 0, []⟩)]
    [("my-lobby-1234", ⟨"my-lobby-1234", "My Lobby", 0, []⟩),
      ("my-lobby-5678", ⟨"my-lobby-5678", "My Lobby", 7, []⟩)]
    "My Lobby" 0 7 9 [1234] [1234, 5678]
    ⟨"my-lobby-1234", "My Lobby", 0, []⟩ ⟨"my-lobby-5678", "My Lobby", 7, []⟩
    (by unfold keyConsistent; simp) (by decide) (by decide) (by decide) (by decide)

/-! ## `POST /api/lobbies` (`routes.ts`) -/

/-- The `name` field of the request body: absent, present but not a string,
or a string. -/
inductive BodyName
  | missing
  | notString
  | given (s : String)
deriving DecidableEq, Repr

/-- ASCII whitespace stripped by JavaScript `String.trim`. -/
def jsWhitespace (c : Char) : Bool :=
  c == ' ' || c == '\t' || c == '\n' || c == '\r' || c == '\x0b' || c == '\x0c'

/-- JavaScript `String.trim` (over the ASCII whitespace set). -/
def jsTrim (s : String) : String :=
  String.mk (((s.toList.dropWhile jsWhitespace).reverse.dropWhile jsWhitespace).reverse)

/-- `typeof req.body?.name === "string" ? req.body.name.trim() : ""`. -/
def rawNameOf (b : BodyName) : String :=
  match b with
  | .given s => jsTrim s
  | _ => ""

/-- The `POST /api/lobbies` handler: trim the name if it is a string, fall
back to `"Lobby N"` with `N = lobbies.size + 1`, create the lobby, respond
201 with its summary. -/
def postLobbies (L : Registry) (b : BodyName) (now : ℕ) (ss : List ℕ) :
    Option (Registry × ℕ × LobbySummary) :=
  let rawName := rawNameOf b
  let name := if rawName == "" then "Lobby " ++ toString (L.length + 1) else rawName
  (createLobby L name now ss).map (fun r => (r.1, 201, getLobbySummary r.2))

/-- C8: a request whose `name` is missing, not a string, empty, or
whitespace-only is never rejected: provided the random suffix stream offers
a free id (the JS loop draws until it finds one), the server creates a
lobby whose display name is `"Lobby N"` with `N` the number of lobbies at
request time plus one, and responds 201 with that lobby's summary. -/
theorem C8_post_lobbies_default_name (L : Registry) (b : BodyName) (now : ℕ)
    (ss : List ℕ) (hraw : rawNameOf b = "")
    (hfresh : ∃ s ∈ ss,
      mapHas L (lobbyIdFrom ("Lobby " ++ toString (L.length + 1)) s) = false) :
    ∃ L2 summary, postLobbies L b now ss = some (L2, 201, summary) ∧
      summary.name = "Lobby " ++ toString (L.length + 1) := by
  obtain ⟨⟨L2, lobby⟩, hr⟩ :=
    createLobby_isSome L ("Lobby " ++ toString (L.length + 1)) now ss hfresh
  obtain ⟨-, -, -, hnm, -⟩ :=
    createLobby_spec L ("Lobby " ++ toString (L.length + 1)) now ss L2 lobby hr
  refine ⟨L2, getLobbySummary lobby, ?_, hnm⟩
  unfold postLobbies
  rw [hraw]
  simp only [beq_self_eq_true, if_pos]
  rw [hr]
  rfl

/-- Witness for C8: whitespace-only name on an empty registry. -/
theorem C8_witness :
    rawNameOf (.given "   ") = "" ∧
    (∃ s ∈ [4321], mapHas ([] : Registry) (lobbyIdFrom ("Lobby " ++ toString (0 + 1)) s)
      = false) ∧
    ∃ L2 summary, postLobbies [] (.given "   ") 3 [4321] = some (L2, 201, summary) ∧
      summary.name = "Lobby " ++ toString (List.length ([] : Registry) + 1) :=
  ⟨by decide, by decide,
   C8_post_lobbies_default_name [] (.given "   ") 3 [4321] (by decide) (by decide)⟩

/-! ## Per-tick physics step (`Aircraft.tsx` `useFrame`) -/

/-- Gravity constant of `Aircraft.tsx`. -/
def GRAVITY : ℚ := 9.8

/-- Flat terrain height of `Aircraft.tsx`. -/
def TERRAIN_HEIGHT : ℚ := 0

/-- The throttle keys held during a tick. -/
structure HeldControls where
  throttleUp : Bool
  throttleDown : Bool
deriving DecidableEq, Repr

/-- The throttle-control stage of the tick: `throttleUp` moves toward 1 and
`throttleDown` toward 0 at `throttleChangeRate` (the down branch starts from
the pre-tick throttle, as in the source). -/
def throttleAfterControls (phys : AircraftPhysics) (c : HeldControls)
    (throttle delta : ℚ) : ℚ :=
  let t1 := if c.throttleUp then min 1 (throttle + phys.throttleChangeRate * delta)
            else throttle
  if c.throttleDown then max 0 (throttle - phys.throttleChangeRate * delta) else t1

/-- The tick's final throttle: the control stage result, followed by the
zero-fuel decay `Math.max(0, newThrottle - 0.1 * delta)` taken when
`fuel > 0` fails. -/
def tickThrottle (phys : AircraftPhysics) (c : HeldControls)
    (fuel throttle delta : ℚ) : ℚ :=
  let newThrottle := throttleAfterControls phys c throttle delta
  if 0 < fuel then newThrottle else max 0 (newThrottle - 0.1 * delta)

lemma throttleChangeRate_nonneg (t : AircraftType) :
    0 ≤ (AIRCRAFT_PHYSICS t).throttleChangeRate := by
  cases t <;> norm_num [AIRCRAFT_PHYSICS]

/-- C4 counterexample: with zero fuel, zero throttle, throttle-up held and
`delta = 1` on the cessna, the tick leaves throttle at 0.4, strictly above
the pre-tick throttle 0 — the decay does not dominate control input. -/
theorem C4_counterexample :
    tickThrottle (AIRCRAFT_PHYSICS .cessna) ⟨true, false⟩ 0 0 1 = 0.4 ∧
    ¬ (tickThrottle (AIRCRAFT_PHYSICS .cessna) ⟨true, false⟩ 0 0 1 ≤ 0) := by
  constructor <;> norm_num [tickThrottle, throttleAfterControls, AIRCRAFT_PHYSICS]

/-- C4 (amended): with zero fuel the tick applies an extra decay of 0.1
units per second after the throttle-control stage; whenever throttle-up is
not held the post-tick throttle never exceeds the pre-tick (nonnegative)
throttle, and with neither throttle key held it is exactly
`max 0 (throttle - 0.1 * delta)`; with throttle-up held the throttle can
still rise at `throttleChangeRate - 0.1` per second despite empty fuel. -/
theorem C4_zero_fuel_throttle_decay (t : AircraftType) (c : HeldControls)
    (fuel throttle delta : ℚ) (hf : fuel = 0) (ht : 0 ≤ throttle) (hd : 0 ≤ delta)
    (hup : c.throttleUp = false) :
    tickThrottle (AIRCRAFT_PHYSICS t) c fuel throttle delta ≤ throttle ∧
    (c.throttleDown = false →
      tickThrottle (AIRCRAFT_PHYSICS t) c fuel throttle delta
        = max 0 (throttle - 0.1 * delta)) := by
  have hrate := throttleChangeRate_nonneg t
  have hnotpos : ¬ (0 < fuel) := by
    rw [hf]
    exact lt_irrefl 0
  have hform : tickThrottle (AIRCRAFT_PHYSICS t) c fuel throttle delta
      = (if c.throttleDown = true
         then max 0 (max 0 (throttle - (AIRCRAFT_PHYSICS t).throttleChangeRate * delta)
           - 0.1 * delta)
         else max 0 (throttle - 0.1 * delta)) := by
    unfold tickThrottle throttleAfterControls
    rw [if_neg hnotpos, hup]
    have hfalse : (if (false = true)
        then min 1 (throttle + (AIRCRAFT_PHYSICS t).throttleChangeRate * delta)
        else throttle) = throttle := if_neg (by simp)
    rw [hfalse]
    by_cases hdn : c.throttleDown = true
    · rw [if_pos hdn, if_pos hdn]
    · rw [if_neg hdn, if_neg hdn]
  rw [hform]
  constructor
  · by_cases hdn : c.throttleDown = true
    · rw [if_pos hdn]
      have h1 : max 0 (throttle - (AIRCRAFT_PHYSICS t).throttleChangeRate * delta)
          ≤ throttle := max_le ht (by nlinarith)
      refine max_le ht (by nlinarith)
    · rw [if_neg hdn]
      exact max_le ht (by nlinarith)
  · intro hdn
    rw [hdn]
    exact if_neg (by simp)

/-- Witness for C4 at zero fuel with no throttle key held. -/
theorem C4_witness :
    (0 : ℚ) = 0 ∧ (0 : ℚ) ≤ 0.5 ∧ (0 : ℚ) ≤ 1 ∧
    (⟨false, false⟩ : HeldControls).throttleUp = false ∧
    (tickThrottle (AIRCRAFT_PHYSICS .cessna) ⟨false, false⟩ 0 0.5 1 ≤ 0.5 ∧
     ((⟨false, false⟩ : HeldControls).throttleDown = false →
       tickThrottle (AIRCRAFT_PHYSICS .cessna) ⟨false, false⟩ 0 0.5 1
         = max 0 (0.5 - 0.1 * 1))) :=
  ⟨rfl, by norm_num, by norm_num, rfl,
   C4_zero_fuel_throttle_decay .cessna ⟨false, false⟩ 0 0.5 1 rfl
     (by norm_num) (by norm_num) rfl⟩

/-- The terrain-collision stage of the tick (`Aircraft.tsx`): below the
clearance `TERRAIN_HEIGHT + 2` the altitude is clamped, downward velocity
zeroed, horizontal velocity halved when slow, and fuel regenerated via the
store's capped `refuel(20 * delta)` when slow and not full. -/
def terrainStep (pos vel : Vec3) (currentSpeed fuel delta : ℚ) : Vec3 × Vec3 × ℚ :=
  if pos.y < TERRAIN_HEIGHT + 2 then
    let posY := TERRAIN_HEIGHT + 2
    let velY := max 0 vel.y
    let velX := if currentSpeed < 5 then vel.x * 0.5 else vel.x
    let velZ := if currentSpeed < 5 then vel.z * 0.5 else vel.z
    let fuel2 := if currentSpeed < 10 ∧ fuel < 100 then min 100 (fuel + 20 * delta)
                 else fuel
    (⟨pos.x, posY, pos.z⟩, ⟨velX, velY, velZ⟩, fuel2)
  else (pos, vel, fuel)

/-- C5: whenever the integrated altitude is below the clearance
`TERRAIN_HEIGHT + 2`, the corrected altitude equals exactly that clearance
and the corrected vertical velocity is nonnegative; when speed is below 5
the horizontal components are halved; when speed is below 10 and fuel below
100, fuel becomes `min 100 (fuel + 20 * delta)` (regeneration at 20 units
per second, capped by the store clamp). -/
theorem C5_terrain_clamp (pos vel : Vec3) (speed fuel delta : ℚ)
    (h : pos.y < TERRAIN_HEIGHT + 2) :
    (terrainStep pos vel speed fuel delta).1.y = TERRAIN_HEIGHT + 2 ∧
    0 ≤ (terrainStep pos vel speed fuel delta).2.1.y ∧
    (speed < 5 → (terrainStep pos vel speed fuel delta).2.1.x = vel.x * 0.5 ∧
      (terrainStep pos vel speed fuel delta).2.1.z = vel.z * 0.5) ∧
    (speed < 10 → fuel < 100 →
      (terrainStep pos vel speed fuel delta).2.2 = min 100 (fuel + 20 * delta)) := by
  unfold terrainStep
  rw [if_pos h]
  refine ⟨rfl, le_max_left 0 vel.y, ?_, ?_⟩
  · intro hs
    constructor
    · show (if speed < 5 then vel.x * 0.5 else vel.x) = vel.x * 0.5
      rw [if_pos hs]
    · show (if speed < 5 then vel.z * 0.5 else vel.z) = vel.z * 0.5
      rw [if_pos hs]
  · intro hs hfl
    show (if speed < 10 ∧ fuel < 100 then min 100 (fuel + 20 * delta) else fuel)
      = min 100 (fuel + 20 * delta)
    rw [if_pos ⟨hs, hfl⟩]

/-- Witness for C5 at a concrete below-clearance state. -/
theorem C5_witness :
    (⟨0, 1, 0⟩ : Vec3).y < TERRAIN_HEIGHT + 2 ∧
    ((terrainStep ⟨0, 1, 0⟩ ⟨2, -3, 4⟩ 4 50 1).1.y = TERRAIN_HEIGHT + 2 ∧
     0 ≤ (terrainStep ⟨0, 1, 0⟩ ⟨2, -3, 4⟩ 4 50 1).2.1.y ∧
     ((4 : ℚ) < 5 → (terrainStep ⟨0, 1, 0⟩ ⟨2, -3, 4⟩ 4 50 1).2.1.x = 2 * 0.5 ∧
       (terrainStep ⟨0, 1, 0⟩ ⟨2, -3, 4⟩ 4 50 1).2.1.z = 4 * 0.5) ∧
     ((4 : ℚ) < 10 → (50 : ℚ) < 100 →
       (terrainStep ⟨0, 1, 0⟩ ⟨2, -3, 4⟩ 4 50 1).2.2 = min 100 (50 + 20 * 1))) :=
  ⟨by norm_num [TERRAIN_HEIGHT],
   C5_terrain_clamp ⟨0, 1, 0⟩ ⟨2, -3, 4⟩ 4 50 1 (by norm_num [TERRAIN_HEIGHT])⟩

/-- The drag stage of the tick: `drag = dragCoefficient * speed * speed`,
`dragFactor = Math.max(0, 1 - drag * delta)`. -/
def dragFactor (phys : AircraftPhysics) (currentSpeed delta : ℚ) : ℚ :=
  max 0 (1 - (phys.dragCoefficient * currentSpeed * currentSpeed) * delta)

/-- Drag is applied by multiplying each velocity component by the factor. -/
def applyDrag (v : Vec3) (factor : ℚ) : Vec3 :=
  ⟨v.x * factor, v.y * factor, v.z * factor⟩

lemma dragCoefficient_nonneg (t : AircraftType) :
    0 ≤ (AIRCRAFT_PHYSICS t).dragCoefficient := by
  cases t <;> norm_num [AIRCRAFT_PHYSICS]

lemma scaleFactor_component (v f : ℚ) (h0 : 0 ≤ f) (h1 : f ≤ 1) :
    |v * f| ≤ |v| ∧ (0 ≤ v → 0 ≤ v * f) ∧ (v ≤ 0 → v * f ≤ 0) := by
  refine ⟨?_, fun hv => mul_nonneg hv h0, fun hv => mul_nonpos_of_nonpos_of_nonneg hv h0⟩
  rw [abs_mul, abs_of_nonneg h0]
  calc |v| * f ≤ |v| * 1 := mul_le_mul_of_nonneg_left h1 (abs_nonneg v)
    _ = |v| := mul_one _

/-- C6: for every aircraft type, speed, and `delta ≥ 0`, the multiplicative
drag factor `max 0 (1 - dragCoefficient * speed^2 * delta)` lies in `[0,1]`,
so the per-axis scaling never increases any component's magnitude and never
flips a component's sign. -/
theorem C6_drag_factor_bounded (t : AircraftType) (speed delta : ℚ) (hd : 0 ≤ delta) :
    0 ≤ dragFactor (AIRCRAFT_PHYSICS t) speed delta ∧
    dragFactor (AIRCRAFT_PHYSICS t) speed delta ≤ 1 ∧
    ∀ v : Vec3,
      |(applyDrag v (dragFactor (AIRCRAFT_PHYSICS t) speed delta)).x| ≤ |v.x| ∧
      |(applyDrag v (dragFactor (AIRCRAFT_PHYSICS t) speed delta)).y| ≤ |v.y| ∧
      |(applyDrag v (dragFactor (AIRCRAFT_PHYSICS t) speed delta)).z| ≤ |v.z| ∧
      (0 ≤ v.x → 0 ≤ (applyDrag v (dragFactor (AIRCRAFT_PHYSICS t) speed delta)).x) ∧
      (v.x ≤ 0 → (applyDrag v (dragFactor (AIRCRAFT_PHYSICS t) speed delta)).x ≤ 0) ∧
      (0 ≤ v.y → 0 ≤ (applyDrag v (dragFactor (AIRCRAFT_PHYSICS t) speed delta)).y) ∧
      (v.y ≤ 0 → (applyDrag v (dragFactor (AIRCRAFT_PHYSICS t) speed delta)).y ≤ 0) ∧
      (0 ≤ v.z → 0 ≤ (applyDrag v (dragFactor (AIRCRAFT_PHYSICS t) speed delta)).z) ∧
      (v.z ≤ 0 → (applyDrag v (dragFactor (AIRCRAFT_PHYSICS t) speed delta)).z ≤ 0) := by
  have hc := dragCoefficient_nonneg t
  have hprod : 0 ≤ ((AIRCRAFT_PHYSICS t).dragCoefficient * speed * speed) * delta := by
    nlinarith [mul_nonneg (mul_nonneg hc (mul_self_nonneg speed)) hd]
  have h0 : 0 ≤ dragFactor (AIRCRAFT_PHYSICS t) speed delta := le_max_left _ _
  have h1 : dragFactor (AIRCRAFT_PHYSICS t) speed delta ≤ 1 := by
    unfold dragFactor
    refine max_le (by norm_num) (by linarith)
  refine ⟨h0, h1, fun v => ?_⟩
  obtain ⟨hax, hsx1, hsx2⟩ := scaleFactor_component v.x _ h0 h1
  obtain ⟨hay, hsy1, hsy2⟩ := scaleFactor_component v.y _ h0 h1
  obtain ⟨haz, hsz1, hsz2⟩ := scaleFactor_component v.z _ h0 h1
  exact ⟨hax, hay, haz, hsx1, hsx2, hsy1, hsy2, hsz1, hsz2⟩

/-- Witness for C6 on the fighter at speed 100, `delta = 1/60`. -/
theorem C6_witness :
    (0 : ℚ) ≤ 1 / 60 ∧
    (0 ≤ dragFactor (AIRCRAFT_PHYSICS .fighter) 100 (1 / 60) ∧
     dragFactor (AIRCRAFT_PHYSICS .fighter) 100 (1 / 60) ≤ 1 ∧
     ∀ v : Vec3,
       |(applyDrag v (dragFactor (AIRCRAFT_PHYSICS .fighter) 100 (1 / 60))).x| ≤ |v.x| ∧
       |(applyDrag v (dragFactor (AIRCRAFT_PHYSICS .fighter) 100 (1 / 60))).y| ≤ |v.y| ∧
       |(applyDrag v (dragFactor (AIRCRAFT_PHYSICS .fighter) 100 (1 / 60))).z| ≤ |v.z| ∧
       (0 ≤ v.x → 0 ≤ (applyDrag v (dragFactor (AIRCRAFT_PHYSICS .fighter) 100 (1 / 60))).x) ∧
       (v.x ≤ 0 → (applyDrag v (dragFactor (AIRCRAFT_PHYSICS .fighter) 100 (1 / 60))).x ≤ 0) ∧
       (0 ≤ v.y → 0 ≤ (applyDrag v (dragFactor (AIRCRAFT_PHYSICS .fighter) 100 (1 / 60))).y) ∧
       (v.y ≤ 0 → (applyDrag v (dragFactor (AIRCRAFT_PHYSICS .fighter) 100 (1 / 60))).y ≤ 0) ∧
       (0 ≤ v.z → 0 ≤ (applyDrag v (dragFactor (AIRCRAFT_PHYSICS .fighter) 100 (1 / 60))).z) ∧
       (v.z ≤ 0 → (applyDrag v (dragFactor (AIRCRAFT_PHYSICS .fighter) 100 (1 / 60))).z ≤ 0)) :=
  ⟨by norm_num, C6_drag_factor_bounded .fighter 100 (1 / 60) (by norm_num)⟩

/-! ## Client store: multiplayer cache and camera (`useFlightSim.tsx`) -/

/-- Camera views of `useFlightSim.tsx`. -/
inductive CameraView
  | chase
  | firstperson
  | external
deriving DecidableEq, BEq, Repr

/-- `PlayerState` as cached by the client store. -/
structure PlayerState where
  id : String
  position : Vec3
  rotation : Vec3
  velocity : Vec3
  fuel : ℚ
  throttle : ℚ
  aircraftType : AircraftType
deriving DecidableEq, Repr

/-- The `useFlightSim` store state (the socket handle, an opaque network
resource, is not part of the value model). -/
structure FlightSimStore where
  playerId : Option String
  position : Vec3
  rotation : Vec3
  velocity : Vec3
  fuel : ℚ
  throttle : ℚ
  speed : ℚ
  altitude : ℚ
  aircraftType : AircraftType
  cameraView : CameraView
  otherPlayers : List (String × PlayerState)
  isConnected : Bool
  lobbyId : Option String
  lobbyName : Option String
  hasJoinedLobby : Bool
deriving DecidableEq, Repr

/-- `updateOtherPlayer`: overwrite the cached peer entry only when the id is
already present; otherwise no `set` call happens at all. -/
def updateOtherPlayer (st : FlightSimStore) (player : PlayerState) : FlightSimStore :=
  if mapHas st.otherPlayers player.id then
    { st with otherPlayers := mapSet st.otherPlayers player.id player }
  else st

/-- C9: a `playerUpdate` for an id absent from `otherPlayers` leaves the
whole store unchanged — the update is dropped rather than creating an
entry. -/
theorem C9_unknown_player_update_dropped (st : FlightSimStore) (player : PlayerState)
    (h : mapHas st.otherPlayers player.id = false) :
    updateOtherPlayer st player = st := by
  unfold updateOtherPlayer
  rw [h]
  simp

/-- Witness for C9: an update for an unknown id on a store caching one peer. -/
theorem C9_witness :
    mapHas ([("p1", ⟨"p1", ⟨0, 50, 0⟩, ⟨0, 0, 0⟩, ⟨0, 0, 0⟩, 100, 0, .cessna⟩)]
        : List (String × PlayerState)) "p2" = false ∧
    updateOtherPlayer
      ⟨some "me", ⟨0, 50, 0⟩, ⟨0, 0, 0⟩, ⟨0, 0, 0⟩, 100, 0, 0, 50, .cessna, .chase,
        [("p1", ⟨"p1", ⟨0, 50, 0⟩, ⟨0, 0, 0⟩, ⟨0, 0, 0⟩, 100, 0, .cessna⟩)],
        true, some "open-skies", some "Open Skies", true⟩
      ⟨"p2", ⟨1, 2, 3⟩, ⟨0, 0, 0⟩, ⟨0, 0, 0⟩, 90, 1, .fighter⟩
    = ⟨some "me", ⟨0, 50, 0⟩, ⟨0, 0, 0⟩, ⟨0, 0, 0⟩, 100, 0, 0, 50, .cessna, .chase,
        [("p1", ⟨"p1", ⟨0, 50, 0⟩, ⟨0, 0, 0⟩, ⟨0, 0, 0⟩, 100, 0, .cessna⟩)],
        true, some "open-skies", some "Open Skies", true⟩ :=
  ⟨by decide,
   C9_unknown_player_update_dropped
     ⟨some "me", ⟨0, 50, 0⟩, ⟨0, 0, 0⟩, ⟨0, 0, 0⟩, 100, 0, 0, 50, .cessna, .chase,
       [("p1", ⟨"p1", ⟨0, 50, 0⟩, ⟨0, 0, 0⟩, ⟨0, 0, 0⟩, 100, 0, .cessna⟩)],
       true, some "open-skies", some "Open Skies", true⟩
     ⟨"p2", ⟨1, 2, 3⟩, ⟨0, 0, 0⟩, ⟨0, 0, 0⟩, 90, 1, .fighter⟩ (by decide)⟩

/-- The `views` array of `cycleCameraView`. -/
def cameraViews : List CameraView := [.chase, .firstperson, .external]

/-- `views[(views.indexOf(currentView) + 1) % views.length]`; the lookup
index is always in range, so the (unreachable) fallback keeps the current
view. -/
def nextCameraView (v : CameraView) : CameraView :=
  cameraViews.getD ((cameraViews.indexOf v + 1) % cameraViews.length) v

/-- `cycleCameraView`: `set({ cameraView: views[nextIndex] })`. -/
def cycleCameraView (st : FlightSimStore) : FlightSimStore :=
  { st with cameraView := nextCameraView st.cameraView }

lemma nextCameraView_chase : nextCameraView .chase = .firstperson := by rfl

lemma nextCameraView_firstperson : nextCameraView .firstperson = .external := by rfl

lemma nextCameraView_external : nextCameraView .external = .chase := by rfl

/-- C10: the camera cycles chase → firstperson → external → chase, three
applications restore the whole store, and each application changes no store
field other than `cameraView`. -/
theorem C10_cycle_camera_view (st : FlightSimStore) :
    (cycleCameraView st).cameraView
      = (match st.cameraView with
         | CameraView.chase => CameraView.firstperson
         | CameraView.firstperson => CameraView.external
         | CameraView.external => CameraView.chase) ∧
    cycleCameraView (cycleCameraView (cycleCameraView st)) = st ∧
    (cycleCameraView st).playerId = st.playerId ∧
    (cycleCameraView st).position = st.position ∧
    (cycleCameraView st).rotation = st.rotation ∧
    (cycleCameraView st).velocity = st.velocity ∧
    (cycleCameraView st).fuel = st.fuel ∧
    (cycleCameraView st).throttle = st.throttle ∧
    (cycleCameraView st).speed = st.speed ∧
    (cycleCameraView st).altitude = st.altitude ∧
    (cycleCameraView st).aircraftType = st.aircraftType ∧
    (cycleCameraView st).otherPlayers = st.otherPlayers ∧
    (cycleCameraView st).isConnected = st.isConnected ∧
    (cycleCameraView st).lobbyId = st.lobbyId ∧
    (cycleCameraView st).lobbyName = st.lobbyName ∧
    (cycleCameraView st).hasJoinedLobby = st.hasJoinedLobby := by
  obtain ⟨pid, pos, rot, vel, fl, th, sp, al, at1, cv, op, ic, lid, lnm, hj⟩ := st
  cases cv <;>
    simp [cycleCameraView, nextCameraView_chase, nextCameraView_firstperson,
      nextCameraView_external]

end FlightSimOnline
